import Mathlib

/-!
# Verification of the VRC-0002 collateralized lending ledger

Shallow embedding of `src/VRC-0002/app/src/services/service.rs` (and its
wiring in `src/VRC-0002/app/src/lib.rs`): the loan-lifecycle state machine,
its fixed-point arithmetic, and the session-based actor resolution.

Machine integers: all asset amounts are Rust `u128`, loan ids and
timestamps are `u64`.  They are embedded as `Nat` together with explicit
saturation / checked operations exactly where the source uses
`saturating_*` / `checked_*`; `Nat` subtraction is already saturating,
matching `saturating_sub`.

Panics (`panic!` / `expect` / `assert!`) are embedded as `Except.error`
with an error tag per distinct panic message.  The host runtime (and the
spec, §7) guarantees all-or-nothing commit of a message's state writes:
an aborted operation retains no ledger mutation, and in `open_loan` every
ledger write occurs after the last suspension point, so a later panic
(e.g. the per-user loan limit) reverts them all.  Hence each operation is
a function from the pre-state to `Except error (post-state × event ×
outbound asset calls)`, and an error leaves the state untouched.

`HashMap`s are embedded as association lists with insert-or-replace
semantics (`alInsert`) and in-place update (`alUpdate`); `HashMap::len`
is the list length (key-uniqueness is maintained by the operations and
proved as part of the ledger invariant).
-/

namespace VRC0002

/-- Actor ids are 256-bit account identifiers; `0` is `ActorId::zero()`. -/
abbrev ActorId := Nat

/-- Largest `u128` value. -/
def U128MAX : Nat := 2 ^ 128 - 1

/-- Largest `u64` value. -/
def U64MAX : Nat := 2 ^ 64 - 1

/-- `u128::saturating_mul`. -/
def satMul128 (a b : Nat) : Nat := min (a * b) U128MAX

/-- `u128::saturating_add`. -/
def satAdd128 (a b : Nat) : Nat := min (a + b) U128MAX

/-- `checked_div`: `none` exactly when the divisor is zero. -/
def checkedDiv (a b : Nat) : Option Nat := if b = 0 then none else some (a / b)

/-- `u128::checked_add`. -/
def checkedAdd128 (a b : Nat) : Option Nat :=
  if a + b ≤ U128MAX then some (a + b) else none

/-- `u64::checked_add`. -/
def checkedAdd64 (a b : Nat) : Option Nat :=
  if a + b ≤ U64MAX then some (a + b) else none

/-- `DECIMALS_FACTOR`: 1e18 fixed-point scale. -/
def DECIMALS_FACTOR : Nat := 1000000000000000000

/-- `MIN_COLLATERAL_RATIO`: 150% in 1e18 fixed point. -/
def MIN_COLLATERAL_RATIO : Nat := 150000000000000000000

/-- `LoanStatus` from the source. -/
inductive LoanStatus where
  | Active
  | Closed
  | Liquidated
deriving DecidableEq, Repr

/-- `Loan` from the source. -/
structure Loan where
  borrower : ActorId
  collateral : Nat
  principal : Nat
  interest_rate : Nat
  start_block : Nat
  status : LoanStatus
deriving DecidableEq, Repr

/-- Association-list lookup, embedding `HashMap::get`. -/
def alGet {V : Type} (m : List (Nat × V)) (k : Nat) : Option V :=
  (m.find? (fun p => p.1 == k)).map Prod.snd

/-- Association-list insert with replace semantics, embedding `HashMap::insert`. -/
def alInsert {V : Type} (m : List (Nat × V)) (k : Nat) (v : V) : List (Nat × V) :=
  if (m.find? (fun p => p.1 == k)).isSome then
    m.map (fun p => if p.1 == k then (k, v) else p)
  else
    m ++ [(k, v)]

/-- In-place modification of the value at a key, embedding mutation through
`HashMap::get_mut` (no-op when the key is absent). -/
def alUpdate {V : Type} (m : List (Nat × V)) (k : Nat) (f : V → V) : List (Nat × V) :=
  m.map (fun p => if p.1 == k then (p.1, f p.2) else p)

/-- `LendingState` from the source. -/
structure LendingState where
  owner : ActorId
  collateral_token : ActorId
  debt_token : ActorId
  base_interest_rate : Nat
  min_loan : Nat
  max_loan : Nat
  next_loan_id : Nat
  loans : List (Nat × Loan)
  user_loans : List (Nat × List Nat)
  total_collateral : Nat
  total_principal : Nat
deriving DecidableEq, Repr

/-- `LendingState::init`: unconditionally replaces the singleton with a
fresh state (`..Default::default()` zeroes the remaining fields). -/
def LendingState.init (owner collateral_token debt_token : ActorId)
    (base_interest_rate min_loan max_loan : Nat) : LendingState :=
  { owner := owner
    collateral_token := collateral_token
    debt_token := debt_token
    base_interest_rate := base_interest_rate
    min_loan := min_loan
    max_loan := max_loan
    next_loan_id := 0
    loans := []
    user_loans := []
    total_collateral := 0
    total_principal := 0 }

/-- `LendingEvent` from the source. -/
inductive LendingEvent where
  | LoanOpened (loan_id : Nat) (borrower : ActorId) (collateral principal : Nat)
  | Repaid (loan_id : Nat) (borrower : ActorId)
  | Liquidated (loan_id : Nat) (borrower : ActorId)
  | OwnerSet (a : ActorId)
  | ParamsUpdated
deriving DecidableEq, Repr

/-- `ActionsForSession` from the source. -/
inductive ActionsForSession where
  | OpenLoan
  | RepayLoan
  | LiquidateLoan
  | UpdateParams
deriving DecidableEq, Repr

/-- `SessionData` is generated by `session_service::generate_session_system!`;
its shape is fixed by the fields `get_actor` reads: the registered signing
`key`, the `expires` timestamp, and the `allowed_actions` set. -/
structure SessionData where
  key : ActorId
  expires : Nat
  allowed_actions : List ActionsForSession
deriving DecidableEq, Repr

/-- One error tag per distinct panic in the source. -/
inductive LendingError where
  | NoSession            -- "No valid session for this account"
  | SessionExpired       -- "Session expired"
  | ActionNotPermitted   -- "Action not allowed"
  | KeyMismatch          -- "Sender not authorized for session"
  | PrincipalOutOfBounds -- "Loan principal out of bounds"
  | ZeroCollateral       -- "Must provide collateral"
  | DivisionError        -- "Division error"
  | InsufficientCollateral -- "Insufficient collateral ratio"
  | LoanLimitReached     -- "Loan limit reached"
  | UserLoanLimitReached -- "User loan limit reached"
  | NoSuchLoan           -- "No such loan" / "No loan"
  | NotLoanOwner         -- "Not loan owner"
  | LoanNotActive        -- "Loan not active"
  | LoanSafe             -- "Loan safe; can't liquidate"
  | NotOwner             -- "Not owner"
  | TransferFailed       -- any failed external transfer / absent reply
  | LoanIdOverflow       -- "Loan id overflow"
  | CollateralOverflow   -- "Collateral overflow"
  | PrincipalOverflow    -- "Principal overflow"
  | TokenAddressZero     -- "Token addresses cannot be zero"
  | LoanThresholdsInvalid -- "Loan thresholds invalid"
deriving DecidableEq, Repr

/-- Outbound asset-contract requests (`ActionIo` variants sent with
`msg::send_bytes_with_gas_for_reply`), recorded with the target token. -/
inductive AssetCall where
  | TransferFrom (token : ActorId) (src dst : ActorId) (amount : Nat)
  | Transfer (token : ActorId) (dst : ActorId) (amount : Nat)
  | Burn (token : ActorId) (src : ActorId) (amount : Nat)
deriving DecidableEq, Repr

/-- The per-call environment: message source, `exec::block_timestamp()`,
the session map, and whether each awaited external reply succeeds
(`reply1_ok` for the first dispatched transfer of the operation,
`reply2_ok` for the second). -/
structure Env where
  msg_source : ActorId
  now : Nat
  sessions : List (Nat × SessionData)
  reply1_ok : Bool
  reply2_ok : Bool
deriving DecidableEq, Repr

/-- `get_actor` from the source: resolves the effective account, checking
session existence, expiry (`expires > now` required), allowed actions, and
the registered key, in that order. -/
def get_actor (session_map : List (Nat × SessionData)) (msg_source : ActorId)
    (session_for_account : Option ActorId) (action : ActionsForSession)
    (now : Nat) : Except LendingError ActorId :=
  match session_for_account with
  | some account =>
    match alGet session_map account with
    | none => .error .NoSession
    | some session =>
      if session.expires > now then
        if session.allowed_actions.contains action then
          if session.key = msg_source then
            .ok account
          else .error .KeyMismatch
        else .error .ActionNotPermitted
      else .error .SessionExpired
  | none => .ok msg_source

/-- The result of a mutating operation: post-state, returned event, and
the outbound asset calls dispatched (in order) on the success path. -/
abbrev OpResult := LendingState × LendingEvent × List AssetCall

/-- `Service::seed`: validates the construction parameters and
(re)initializes the singleton.  Note the source's `LendingState::init`
does not check whether the state is already initialized: `seed` always
replaces it when the parameter checks pass. -/
def Service.seed (caller : ActorId) (collateral_token debt_token : ActorId)
    (base_interest_rate min_loan max_loan : Nat)
    (_prev : Option LendingState) : Except LendingError LendingState :=
  if collateral_token = 0 ∨ debt_token = 0 then
    .error .TokenAddressZero
  else if min_loan = 0 ∨ max_loan = 0 ∨ max_loan < min_loan then
    .error .LoanThresholdsInvalid
  else
    .ok (LendingState.init caller collateral_token debt_token
          base_interest_rate min_loan max_loan)

/-- `Service::open_loan`.  In the source the ledger writes (loan insert,
user-index push, id increment, aggregates) all happen after the second
await; a panic there (user-loan limit, id/aggregate overflow) traps the
message and the runtime discards every write since that suspension point,
so the committed behavior is check-then-commit as embedded here. -/
def Service.open_loan (env : Env) (s : LendingState)
    (collateral principal : Nat) (session_for_account : Option ActorId) :
    Except LendingError OpResult :=
  match get_actor env.sessions env.msg_source session_for_account
      .OpenLoan env.now with
  | .error e => .error e
  | .ok borrower =>
    if principal < s.min_loan ∨ principal > s.max_loan then
      .error .PrincipalOutOfBounds
    else if collateral = 0 then
      .error .ZeroCollateral
    else
      match checkedDiv (satMul128 collateral DECIMALS_FACTOR) principal with
      | none => .error .DivisionError
      | some ratio =>
        if ratio < MIN_COLLATERAL_RATIO then
          .error .InsufficientCollateral
        else if s.loans.length ≥ 10000 then
          .error .LoanLimitReached
        else if ¬ env.reply1_ok then
          .error .TransferFailed
        else if ¬ env.reply2_ok then
          .error .TransferFailed
        else
          let loan : Loan :=
            { borrower := borrower
              collateral := collateral
              principal := principal
              interest_rate := s.base_interest_rate
              start_block := env.now
              status := .Active }
          let userLoans := (alGet s.user_loans borrower).getD []
          if userLoans.length ≥ 100 then
            .error .UserLoanLimitReached
          else
            match checkedAdd64 s.next_loan_id 1 with
            | none => .error .LoanIdOverflow
            | some nextId =>
              match checkedAdd128 s.total_collateral collateral with
              | none => .error .CollateralOverflow
              | some totColl =>
                match checkedAdd128 s.total_principal principal with
                | none => .error .PrincipalOverflow
                | some totPrin =>
                  .ok ({ s with
                          loans := alInsert s.loans s.next_loan_id loan
                          user_loans := alInsert s.user_loans borrower
                            (userLoans ++ [s.next_loan_id])
                          next_loan_id := nextId
                          total_collateral := totColl
                          total_principal := totPrin },
                    .LoanOpened s.next_loan_id borrower collateral principal,
                    [.TransferFrom s.collateral_token borrower 0 collateral,
                     .TransferFrom s.debt_token 0 borrower principal])

/-- The interest computation of `Service::repay`:
`principal.saturating_mul(rate).saturating_mul(duration)
  .checked_div(31_536_000).unwrap_or(0)
  .checked_div(DECIMALS_FACTOR).unwrap_or(0)`. -/
def repayInterest (principal rate duration : Nat) : Nat :=
  (checkedDiv
    ((checkedDiv (satMul128 (satMul128 principal rate) duration)
        31536000).getD 0)
    DECIMALS_FACTOR).getD 0

/-- `Service::repay`. -/
def Service.repay (env : Env) (s : LendingState) (loan_id : Nat)
    (session_for_account : Option ActorId) : Except LendingError OpResult :=
  match get_actor env.sessions env.msg_source session_for_account
      .RepayLoan env.now with
  | .error e => .error e
  | .ok borrower =>
    match alGet s.loans loan_id with
    | none => .error .NoSuchLoan
    | some loan =>
      if loan.borrower ≠ borrower then
        .error .NotLoanOwner
      else if loan.status ≠ .Active then
        .error .LoanNotActive
      else
        let duration := env.now - loan.start_block
        let interest := repayInterest loan.principal loan.interest_rate duration
        let total_owed := satAdd128 loan.principal interest
        if ¬ env.reply1_ok then
          .error .TransferFailed
        else if ¬ env.reply2_ok then
          .error .TransferFailed
        else
          .ok ({ s with
                  total_collateral := s.total_collateral - loan.collateral
                  total_principal := s.total_principal - loan.principal
                  loans := alUpdate s.loans loan_id
                    (fun l => { l with status := .Closed }) },
            .Repaid loan_id borrower,
            [.Burn s.debt_token borrower total_owed,
             .Transfer s.collateral_token borrower loan.collateral])

/-- `Service::liquidate`: no actor resolution; the session argument is
ignored. -/
def Service.liquidate (env : Env) (s : LendingState) (loan_id : Nat)
    (_session_for_account : Option ActorId) : Except LendingError OpResult :=
  match alGet s.loans loan_id with
  | none => .error .NoSuchLoan
  | some loan =>
    if loan.status ≠ .Active then
      .error .LoanNotActive
    else
      match checkedDiv (satMul128 loan.collateral DECIMALS_FACTOR)
          (max loan.principal 1) with
      | none => .error .DivisionError
      | some ratio =>
        if ratio ≥ MIN_COLLATERAL_RATIO then
          .error .LoanSafe
        else if ¬ env.reply1_ok then
          .error .TransferFailed
        else
          let s' : LendingState :=
            { s with
              total_collateral := s.total_collateral - loan.collateral
              total_principal := s.total_principal - loan.principal
              loans := alUpdate s.loans loan_id
                (fun l => { l with status := .Liquidated }) }
          .ok (s', .Liquidated loan_id loan.borrower,
            [.Transfer s.collateral_token s.owner loan.collateral])

/-- `Service::set_owner`. -/
def Service.set_owner (env : Env) (s : LendingState) (new_owner : ActorId)
    (session_for_account : Option ActorId) : Except LendingError OpResult :=
  match get_actor env.sessions env.msg_source session_for_account
      .UpdateParams env.now with
  | .error e => .error e
  | .ok who =>
    if who ≠ s.owner then
      .error .NotOwner
    else
      .ok ({ s with owner := new_owner }, .OwnerSet new_owner, [])

/-- `Service::update_params`: owner-gated, but performs no validation of
the new rate / min / max values. -/
def Service.update_params (env : Env) (s : LendingState)
    (new_rate min_loan max_loan : Nat)
    (session_for_account : Option ActorId) : Except LendingError OpResult :=
  match get_actor env.sessions env.msg_source session_for_account
      .UpdateParams env.now with
  | .error e => .error e
  | .ok who =>
    if who ≠ s.owner then
      .error .NotOwner
    else
      .ok ({ s with
              base_interest_rate := new_rate
              min_loan := min_loan
              max_loan := max_loan },
           .ParamsUpdated, [])

/-- `Service::query_loan`: a pure read (`&self` in the source), returning
an owned copy of the loan when present. -/
def Service.query_loan (s : LendingState) (loan_id : Nat) : Option Loan :=
  alGet s.loans loan_id

/-- `Service::query_user_loans`: a pure read (`&self`), returning the
user's loan-id list truncated to 100 entries, or `[]` when the user has
no entry. -/
def Service.query_user_loans (s : LendingState) (user : ActorId) : List Nat :=
  match alGet s.user_loans user with
  | some loans => if loans.length > 100 then loans.take 100 else loans
  | none => []

/-- One client-visible mutating call, with its environment. -/
inductive Op where
  | openLoan (env : Env) (collateral principal : Nat) (sfa : Option ActorId)
  | repay (env : Env) (loan_id : Nat) (sfa : Option ActorId)
  | liquidate (env : Env) (loan_id : Nat) (sfa : Option ActorId)
  | setOwner (env : Env) (new_owner : ActorId) (sfa : Option ActorId)
  | updateParams (env : Env) (rate minL maxL : Nat) (sfa : Option ActorId)
deriving Repr

/-- Dispatch one operation against the ledger. -/
def applyOp (s : LendingState) (op : Op) : Except LendingError OpResult :=
  match op with
  | .openLoan env c p sfa => Service.open_loan env s c p sfa
  | .repay env id sfa => Service.repay env s id sfa
  | .liquidate env id sfa => Service.liquidate env s id sfa
  | .setOwner env o sfa => Service.set_owner env s o sfa
  | .updateParams env r mn mx sfa => Service.update_params env s r mn mx sfa

/-- Run a sequence of operations: a failed (aborted) operation leaves the
committed ledger state unchanged, per the runtime's all-or-nothing commit. -/
def runOps (s : LendingState) (ops : List Op) : LendingState :=
  ops.foldl (fun st op =>
    match applyOp st op with
    | .ok (st', _, _) => st'
    | .error _ => st) s

/-- Sum of a loan field over the Active loans of the map. -/
def activeSum (f : Loan → Nat) (loans : List (Nat × Loan)) : Nat :=
  (loans.map (fun p => if p.2.status = .Active then f p.2 else 0)).sum

/-- Sum of `collateral` over the Active loans of the map. -/
def activeCollSum (loans : List (Nat × Loan)) : Nat :=
  activeSum Loan.collateral loans

/-- Sum of `principal` over the Active loans of the map. -/
def activePrinSum (loans : List (Nat × Loan)) : Nat :=
  activeSum Loan.principal loans

/-- The ledger bookkeeping invariant: every loan key is below
`next_loan_id` (hence keys are fresh on insert and pairwise distinct),
and the running aggregates equal the sums over Active loans. -/
def ledgerInv (s : LendingState) : Prop :=
  (∀ p ∈ s.loans, p.1 < s.next_loan_id) ∧
  (s.loans.map Prod.fst).Nodup ∧
  s.total_collateral = activeCollSum s.loans ∧
  s.total_principal = activePrinSum s.loans

/-- The configuration invariant of spec §3: token addresses non-zero,
`0 < min_loan ≤ max_loan` (both positive). -/
def configInv (s : LendingState) : Prop :=
  s.collateral_token ≠ 0 ∧ s.debt_token ≠ 0 ∧
  0 < s.min_loan ∧ 0 < s.max_loan ∧ s.min_loan ≤ s.max_loan

/-! ## Inversion lemmas for the success paths -/

theorem open_loan_ok_elim {env : Env} {s : LendingState} {c p : Nat}
    {sfa : Option ActorId} {s' : LendingState} {ev : LendingEvent}
    {calls : List AssetCall}
    (h : Service.open_loan env s c p sfa = .ok (s', ev, calls)) :
    ∃ borrower,
      get_actor env.sessions env.msg_source sfa .OpenLoan env.now
        = .ok borrower ∧
      s.min_loan ≤ p ∧ p ≤ s.max_loan ∧ c ≠ 0 ∧ p ≠ 0 ∧
      MIN_COLLATERAL_RATIO ≤ satMul128 c DECIMALS_FACTOR / p ∧
      s.loans.length < 10000 ∧
      env.reply1_ok = true ∧ env.reply2_ok = true ∧
      ((alGet s.user_loans borrower).getD []).length < 100 ∧
      s.next_loan_id + 1 ≤ U64MAX ∧
      s.total_collateral + c ≤ U128MAX ∧
      s.total_principal + p ≤ U128MAX ∧
      s' = { s with
              loans := alInsert s.loans s.next_loan_id
                ⟨borrower, c, p, s.base_interest_rate, env.now, .Active⟩
              user_loans := alInsert s.user_loans borrower
                (((alGet s.user_loans borrower).getD []) ++ [s.next_loan_id])
              next_loan_id := s.next_loan_id + 1
              total_collateral := s.total_collateral + c
              total_principal := s.total_principal + p } ∧
      ev = .LoanOpened s.next_loan_id borrower c p ∧
      calls = [.TransferFrom s.collateral_token borrower 0 c,
               .TransferFrom s.debt_token 0 borrower p] := by
  unfold Service.open_loan at h
  split at h
  · exact absurd h (by simp)
  case _ borrower hga =>
  refine ⟨borrower, hga, ?_⟩
  split at h
  · exact absurd h (by simp)
  case _ hbounds =>
  split at h
  · exact absurd h (by simp)
  case _ hc0 =>
  split at h
  · exact absurd h (by simp)
  case _ ratio hdiv =>
  split at h
  · exact absurd h (by simp)
  case _ hratio =>
  split at h
  · exact absurd h (by simp)
  case _ hsize =>
  split at h
  · exact absurd h (by simp)
  case _ h1 =>
  split at h
  · exact absurd h (by simp)
  case _ h2 =>
  simp only [] at h
  split at h
  · exact absurd h (by simp)
  case _ hulen =>
  split at h
  · exact absurd h (by simp)
  case _ nextId hnext =>
  split at h
  · exact absurd h (by simp)
  case _ totColl hcoll =>
  split at h
  · exact absurd h (by simp)
  case _ totPrin hprin =>
  rw [Except.ok.injEq, Prod.mk.injEq, Prod.mk.injEq] at h
  obtain ⟨hs', hev, hcalls⟩ := h
  have hp0 : p ≠ 0 := by
    intro hp; rw [hp] at hdiv; simp [checkedDiv] at hdiv
  have hdiv' : ratio = satMul128 c DECIMALS_FACTOR / p := by
    simp [checkedDiv, hp0] at hdiv; omega
  have hnext' : nextId = s.next_loan_id + 1 ∧ s.next_loan_id + 1 ≤ U64MAX := by
    simp only [checkedAdd64] at hnext
    split at hnext
    · rw [Option.some.injEq] at hnext
      refine ⟨hnext.symm, by assumption⟩
    · exact absurd hnext (by simp)
  have hcoll' : totColl = s.total_collateral + c ∧
      s.total_collateral + c ≤ U128MAX := by
    simp only [checkedAdd128] at hcoll
    split at hcoll
    · rw [Option.some.injEq] at hcoll
      refine ⟨hcoll.symm, by assumption⟩
    · exact absurd hcoll (by simp)
  have hprin' : totPrin = s.total_principal + p ∧
      s.total_principal + p ≤ U128MAX := by
    simp only [checkedAdd128] at hprin
    split at hprin
    · rw [Option.some.injEq] at hprin
      refine ⟨hprin.symm, by assumption⟩
    · exact absurd hprin (by simp)
  refine ⟨by omega, by omega, hc0, hp0, by omega, by omega,
    by simpa using h1, by simpa using h2, by omega,
    hnext'.2, hcoll'.2, hprin'.2, ?_, hev.symm, hcalls.symm⟩
  rw [← hs', hnext'.1, hcoll'.1, hprin'.1]

theorem repay_ok_elim {env : Env} {s : LendingState} {loan_id : Nat}
    {sfa : Option ActorId} {s' : LendingState} {ev : LendingEvent}
    {calls : List AssetCall}
    (h : Service.repay env s loan_id sfa = .ok (s', ev, calls)) :
    ∃ borrower loan,
      get_actor env.sessions env.msg_source sfa .RepayLoan env.now
        = .ok borrower ∧
      alGet s.loans loan_id = some loan ∧
      loan.borrower = borrower ∧ loan.status = .Active ∧
      env.reply1_ok = true ∧ env.reply2_ok = true ∧
      s' = { s with
              total_collateral := s.total_collateral - loan.collateral
              total_principal := s.total_principal - loan.principal
              loans := alUpdate s.loans loan_id
                (fun l => { l with status := .Closed }) } ∧
      ev = .Repaid loan_id borrower ∧
      calls = [.Burn s.debt_token borrower
                (satAdd128 loan.principal
                  (repayInterest loan.principal loan.interest_rate
                    (env.now - loan.start_block))),
               .Transfer s.collateral_token borrower loan.collateral] := by
  unfold Service.repay at h
  split at h
  · exact absurd h (by simp)
  case _ borrower hga =>
  split at h
  · exact absurd h (by simp)
  case _ loan hget =>
  refine ⟨borrower, loan, hga, hget, ?_⟩
  split at h
  · exact absurd h (by simp)
  case _ hown =>
  split at h
  · exact absurd h (by simp)
  case _ hstat =>
  simp only [] at h
  split at h
  · exact absurd h (by simp)
  case _ h1 =>
  split at h
  · exact absurd h (by simp)
  case _ h2 =>
  rw [Except.ok.injEq, Prod.mk.injEq, Prod.mk.injEq] at h
  obtain ⟨hs', hev, hcalls⟩ := h
  exact ⟨by simpa using hown, by simpa using hstat,
    by simpa using h1, by simpa using h2, hs'.symm, hev.symm, hcalls.symm⟩

theorem liquidate_ok_elim {env : Env} {s : LendingState} {loan_id : Nat}
    {sfa : Option ActorId} {s' : LendingState} {ev : LendingEvent}
    {calls : List AssetCall}
    (h : Service.liquidate env s loan_id sfa = .ok (s', ev, calls)) :
    ∃ loan,
      alGet s.loans loan_id = some loan ∧
      loan.status = .Active ∧
      satMul128 loan.collateral DECIMALS_FACTOR / (max loan.principal 1)
        < MIN_COLLATERAL_RATIO ∧
      env.reply1_ok = true ∧
      s' = { s with
              total_collateral := s.total_collateral - loan.collateral
              total_principal := s.total_principal - loan.principal
              loans := alUpdate s.loans loan_id
                (fun l => { l with status := .Liquidated }) } ∧
      ev = .Liquidated loan_id loan.borrower ∧
      calls = [.Transfer s.collateral_token s.owner loan.collateral] := by
  unfold Service.liquidate at h
  split at h
  · exact absurd h (by simp)
  case _ loan hget =>
  refine ⟨loan, hget, ?_⟩
  split at h
  · exact absurd h (by simp)
  case _ hstat =>
  split at h
  · exact absurd h (by simp)
  case _ ratio hdiv =>
  split at h
  · exact absurd h (by simp)
  case _ hratio =>
  split at h
  · exact absurd h (by simp)
  case _ h1 =>
  rw [Except.ok.injEq, Prod.mk.injEq, Prod.mk.injEq] at h
  obtain ⟨hs', hev, hcalls⟩ := h
  have hdiv' : ratio = satMul128 loan.collateral DECIMALS_FACTOR
      / (max loan.principal 1) := by
    simp only [checkedDiv] at hdiv
    split at hdiv
    · exact absurd hdiv (by simp)
    · rw [Option.some.injEq] at hdiv; omega
  exact ⟨by simpa using hstat, by omega, by simpa using h1,
    hs'.symm, hev.symm, hcalls.symm⟩

theorem set_owner_ok_elim {env : Env} {s : LendingState} {new_owner : ActorId}
    {sfa : Option ActorId} {s' : LendingState} {ev : LendingEvent}
    {calls : List AssetCall}
    (h : Service.set_owner env s new_owner sfa = .ok (s', ev, calls)) :
    get_actor env.sessions env.msg_source sfa .UpdateParams env.now
      = .ok s.owner ∧
    s' = { s with owner := new_owner } ∧ ev = .OwnerSet new_owner ∧
    calls = [] := by
  unfold Service.set_owner at h
  split at h
  · exact absurd h (by simp)
  case _ who hga =>
  split at h
  · exact absurd h (by simp)
  case _ hwho =>
  rw [Except.ok.injEq, Prod.mk.injEq, Prod.mk.injEq] at h
  obtain ⟨hs', hev, hcalls⟩ := h
  have : who = s.owner := by simpa using hwho
  exact ⟨this ▸ hga, hs'.symm, hev.symm, hcalls.symm⟩

theorem update_params_ok_elim {env : Env} {s : LendingState}
    {new_rate mn mx : Nat} {sfa : Option ActorId} {s' : LendingState}
    {ev : LendingEvent} {calls : List AssetCall}
    (h : Service.update_params env s new_rate mn mx sfa
      = .ok (s', ev, calls)) :
    get_actor env.sessions env.msg_source sfa .UpdateParams env.now
      = .ok s.owner ∧
    s' = { s with
            base_interest_rate := new_rate
            min_loan := mn
            max_loan := mx } ∧
    ev = .ParamsUpdated ∧ calls = [] := by
  unfold Service.update_params at h
  split at h
  · exact absurd h (by simp)
  case _ who hga =>
  split at h
  · exact absurd h (by simp)
  case _ hwho =>
  rw [Except.ok.injEq, Prod.mk.injEq, Prod.mk.injEq] at h
  obtain ⟨hs', hev, hcalls⟩ := h
  have : who = s.owner := by simpa using hwho
  exact ⟨this ▸ hga, hs'.symm, hev.symm, hcalls.symm⟩

/-! ## Association-list lemmas -/

theorem alGet_nil {V : Type} (k : Nat) : alGet ([] : List (Nat × V)) k = none := rfl

theorem alGet_cons {V : Type} (a : Nat) (b : V) (t : List (Nat × V)) (k : Nat) :
    alGet ((a, b) :: t) k = if a = k then some b else alGet t k := by
  unfold alGet
  rw [List.find?_cons]
  by_cases h : a = k
  · simp [h]
  · have hb : (a == k) = false := beq_eq_false_iff_ne.mpr h
    simp [h, hb]

theorem alUpdate_nil {V : Type} (k : Nat) (f : V → V) :
    alUpdate ([] : List (Nat × V)) k f = [] := rfl

theorem alUpdate_cons {V : Type} (a : Nat) (b : V) (t : List (Nat × V))
    (k : Nat) (f : V → V) :
    alUpdate ((a, b) :: t) k f =
      (if a = k then (a, f b) else (a, b)) :: alUpdate t k f := by
  unfold alUpdate
  by_cases h : a = k <;> simp [h]

theorem alGet_mem {V : Type} {m : List (Nat × V)} {k : Nat} {v : V}
    (h : alGet m k = some v) : (k, v) ∈ m := by
  induction m with
  | nil => simp [alGet_nil] at h
  | cons q t ih =>
    obtain ⟨a, b⟩ := q
    rw [alGet_cons] at h
    by_cases hq : a = k
    · rw [if_pos hq, Option.some.injEq] at h
      rw [hq, h]
      exact List.mem_cons_self _ _
    · rw [if_neg hq] at h
      exact List.mem_cons_of_mem _ (ih h)

theorem alGet_none_iff {V : Type} {m : List (Nat × V)} {k : Nat} :
    alGet m k = none ↔ ∀ q ∈ m, q.1 ≠ k := by
  induction m with
  | nil => simp [alGet_nil]
  | cons q t ih =>
    obtain ⟨a, b⟩ := q
    rw [alGet_cons]
    by_cases h : a = k <;> simp [h, ih]

theorem alInsert_fresh {V : Type} {m : List (Nat × V)} {k : Nat} (v : V)
    (h : ∀ q ∈ m, q.1 ≠ k) : alInsert m k v = m ++ [(k, v)] := by
  unfold alInsert
  have hf : m.find? (fun p => p.1 == k) = none := by
    rw [List.find?_eq_none]; simpa using h
  simp [hf]

theorem alUpdate_eq_self {V : Type} {m : List (Nat × V)} {k : Nat}
    (f : V → V) (h : ∀ q ∈ m, q.1 ≠ k) : alUpdate m k f = m := by
  unfold alUpdate
  conv_rhs => rw [← List.map_id m]
  apply List.map_congr_left
  intro q hq
  simp [h q hq]

theorem alUpdate_map_fst {V : Type} (m : List (Nat × V)) (k : Nat)
    (f : V → V) : (alUpdate m k f).map Prod.fst = m.map Prod.fst := by
  unfold alUpdate
  rw [List.map_map]
  apply List.map_congr_left
  intro q _
  by_cases hq : q.1 = k <;> simp [hq]

theorem alGet_alUpdate_self {V : Type} {m : List (Nat × V)} {k : Nat}
    {v : V} (f : V → V) (h : alGet m k = some v) :
    alGet (alUpdate m k f) k = some (f v) := by
  induction m with
  | nil => simp [alGet_nil] at h
  | cons q t ih =>
    obtain ⟨a, b⟩ := q
    rw [alGet_cons] at h
    rw [alUpdate_cons]
    by_cases hq : a = k
    · rw [if_pos hq, Option.some.injEq] at h
      rw [if_pos hq, alGet_cons, if_pos hq, h]
    · rw [if_neg hq] at h
      rw [if_neg hq, alGet_cons, if_neg hq]
      exact ih h

theorem alGet_append_left {V : Type} {m : List (Nat × V)} {k : Nat} {v : V}
    (h : alGet m k = some v) (l : List (Nat × V)) :
    alGet (m ++ l) k = some v := by
  induction m with
  | nil => simp [alGet_nil] at h
  | cons q t ih =>
    obtain ⟨a, b⟩ := q
    rw [alGet_cons] at h
    rw [List.cons_append, alGet_cons]
    by_cases hq : a = k
    · rw [if_pos hq] at h ⊢; exact h
    · rw [if_neg hq] at h ⊢; exact ih h

theorem alGet_alUpdate_ne {V : Type} {m : List (Nat × V)} {k j : Nat}
    (f : V → V) (h : j ≠ k) : alGet (alUpdate m j f) k = alGet m k := by
  induction m with
  | nil => rfl
  | cons q t ih =>
    obtain ⟨a, b⟩ := q
    rw [alUpdate_cons]
    by_cases hq : a = j
    · rw [if_pos hq, alGet_cons, alGet_cons]
      have : ¬a = k := by rw [hq]; exact h
      rw [if_neg this, if_neg this]
      exact ih
    · rw [if_neg hq, alGet_cons, alGet_cons]
      by_cases hak : a = k
      · rw [if_pos hak, if_pos hak]
      · rw [if_neg hak, if_neg hak]
        exact ih

theorem alGet_append_right {V : Type} {m : List (Nat × V)} {k : Nat}
    (h : alGet m k = none) (v : V) : alGet (m ++ [(k, v)]) k = some v := by
  induction m with
  | nil => simp [alGet_cons]
  | cons q t ih =>
    obtain ⟨a, b⟩ := q
    rw [alGet_cons] at h
    by_cases hq : a = k
    · rw [if_pos hq] at h; exact absurd h (by simp)
    · rw [if_neg hq] at h
      rw [List.cons_append, alGet_cons, if_neg hq]
      exact ih h

/-! ## Active-sum lemmas -/

theorem activeSum_nil (f : Loan → Nat) : activeSum f [] = 0 := rfl

theorem activeSum_cons (f : Loan → Nat) (q : Nat × Loan)
    (t : List (Nat × Loan)) :
    activeSum f (q :: t) =
      (if q.2.status = .Active then f q.2 else 0) + activeSum f t := by
  simp [activeSum]

theorem activeSum_append (f : Loan → Nat) (m : List (Nat × Loan))
    (q : Nat × Loan) :
    activeSum f (m ++ [q]) = activeSum f m
      + (if q.2.status = .Active then f q.2 else 0) := by
  simp [activeSum]

theorem activeSum_le_of_alGet (f : Loan → Nat) {m : List (Nat × Loan)}
    {k : Nat} {loan : Loan} (h : alGet m k = some loan)
    (ha : loan.status = .Active) : f loan ≤ activeSum f m := by
  have hmem := alGet_mem h
  have hrw : f loan = (if loan.status = .Active then f loan else 0) := by
    simp [ha]
  rw [hrw]
  apply List.single_le_sum (by intro x hx; exact Nat.zero_le x)
  exact List.mem_map.mpr ⟨(k, loan), hmem, rfl⟩

theorem activeSum_alUpdate (f : Loan → Nat) (g : Loan → Loan)
    (hg : ∀ l, (g l).status ≠ .Active) {m : List (Nat × Loan)} {k : Nat}
    {loan : Loan} (hnd : (m.map Prod.fst).Nodup)
    (hget : alGet m k = some loan) (ha : loan.status = .Active) :
    activeSum f (alUpdate m k g) = activeSum f m - f loan := by
  induction m with
  | nil => simp [alGet_nil] at hget
  | cons q t ih =>
    obtain ⟨a, b⟩ := q
    rw [List.map_cons, List.nodup_cons] at hnd
    rw [alGet_cons] at hget
    rw [alUpdate_cons]
    by_cases hak : a = k
    · rw [if_pos hak] at hget ⊢
      rw [Option.some.injEq] at hget
      subst hget
      have hupd : alUpdate t k g = t := by
        apply alUpdate_eq_self
        intro r hr hrk
        apply hnd.1
        rw [hak]
        exact List.mem_map.mpr ⟨r, hr, hrk⟩
      rw [hupd, activeSum_cons, activeSum_cons]
      simp [hg b, ha]
    · rw [if_neg hak] at hget ⊢
      have hle : f loan ≤ activeSum f t := activeSum_le_of_alGet f hget ha
      rw [activeSum_cons, activeSum_cons, ih hnd.2 hget]
      omega

/-! ## Ledger invariant preservation -/

theorem ledgerInv_init (owner ct dt rate mn mx : Nat) :
    ledgerInv (LendingState.init owner ct dt rate mn mx) := by
  refine ⟨?_, ?_, ?_, ?_⟩ <;>
    simp [LendingState.init, activeCollSum, activePrinSum, activeSum]

theorem applyOp_ok_preserves_ledgerInv {s : LendingState} {op : Op}
    {s' : LendingState} {ev : LendingEvent} {calls : List AssetCall}
    (hinv : ledgerInv s) (h : applyOp s op = .ok (s', ev, calls)) :
    ledgerInv s' := by
  obtain ⟨hlt, hnd, hcoll, hprin⟩ := hinv
  cases op with
  | openLoan env c p sfa =>
    obtain ⟨b, _, _, _, _, _, _, _, _, _, _, _, _, _, hs', _, _⟩ :=
      open_loan_ok_elim h
    subst hs'
    have hfresh : ∀ q ∈ s.loans, q.1 ≠ s.next_loan_id := by
      intro q hq hqk
      exact absurd (hqk ▸ hlt q hq) (lt_irrefl _)
    rw [alInsert_fresh _ hfresh]
    refine ⟨?_, ?_, ?_, ?_⟩
    · intro q hq
      rcases List.mem_append.mp hq with hq | hq
      · exact Nat.lt_succ_of_lt (hlt q hq)
      · simp at hq
        simp [hq]
    · rw [List.map_append, List.nodup_append]
      refine ⟨hnd, by simp, ?_⟩
      intro a ha hb
      simp at hb
      subst hb
      obtain ⟨q, hq, hqa⟩ := List.mem_map.mp ha
      exact hfresh q hq hqa
    · simp only [activeCollSum] at hcoll ⊢
      rw [activeSum_append]
      simp [hcoll]
    · simp only [activePrinSum] at hprin ⊢
      rw [activeSum_append]
      simp [hprin]
  | repay env loan_id sfa =>
    obtain ⟨b, loan, _, hget, _, hact, _, _, hs', _, _⟩ := repay_ok_elim h
    subst hs'
    refine ⟨?_, ?_, ?_, ?_⟩
    · intro q hq
      simp only [alUpdate, List.mem_map] at hq
      obtain ⟨r, hr, hrq⟩ := hq
      have : q.1 = r.1 := by
        rw [← hrq]; split <;> rfl
      rw [this]
      exact hlt r hr
    · rw [alUpdate_map_fst]; exact hnd
    · simp only [activeCollSum] at hcoll ⊢
      rw [activeSum_alUpdate _ _ (by intro l; simp) hnd hget hact, hcoll]
    · simp only [activePrinSum] at hprin ⊢
      rw [activeSum_alUpdate _ _ (by intro l; simp) hnd hget hact, hprin]
  | liquidate env loan_id sfa =>
    obtain ⟨loan, hget, hact, _, _, hs', _, _⟩ :=
      @liquidate_ok_elim env s loan_id sfa s' ev calls h
    subst hs'
    refine ⟨?_, ?_, ?_, ?_⟩
    · intro q hq
      simp only [alUpdate, List.mem_map] at hq
      obtain ⟨r, hr, hrq⟩ := hq
      have : q.1 = r.1 := by
        rw [← hrq]; split <;> rfl
      rw [this]
      exact hlt r hr
    · rw [alUpdate_map_fst]; exact hnd
    · simp only [activeCollSum] at hcoll ⊢
      rw [activeSum_alUpdate _ _ (by intro l; simp) hnd hget hact, hcoll]
    · simp only [activePrinSum] at hprin ⊢
      rw [activeSum_alUpdate _ _ (by intro l; simp) hnd hget hact, hprin]
  | setOwner env new_owner sfa =>
    obtain ⟨_, hs', _, _⟩ := set_owner_ok_elim h
    subst hs'
    exact ⟨hlt, hnd, hcoll, hprin⟩
  | updateParams env r mn mx sfa =>
    obtain ⟨_, hs', _, _⟩ := update_params_ok_elim h
    subst hs'
    exact ⟨hlt, hnd, hcoll, hprin⟩

theorem runOps_preserves_ledgerInv (ops : List Op) {s : LendingState}
    (hinv : ledgerInv s) : ledgerInv (runOps s ops) := by
  induction ops generalizing s with
  | nil => exact hinv
  | cons op ops ih =>
    unfold runOps
    rw [List.foldl_cons]
    cases hap : applyOp s op with
    | ok r =>
      obtain ⟨s', ev, calls⟩ := r
      exact ih (applyOp_ok_preserves_ledgerInv hinv hap)
    | error e => exact ih hinv

/-! ## Concrete sample states used by witnesses and counterexamples -/

/-- A freshly seeded configuration: owner 1, collateral token 2, debt
token 3, zero base rate, principal bounds [10, 1000]. -/
def sample0 : LendingState := LendingState.init 1 2 3 0 10 1000

/-- `sample0` after a successful `open_loan` of 20000 collateral / 100
principal by account 5 at time 0 (ratio `20000·1e18/100 = 200·1e18`,
above the `150·1e18` floor). -/
def sample1 : LendingState :=
  { sample0 with
    next_loan_id := 1
    loans := [(0, ⟨5, 20000, 100, 0, 0, .Active⟩)]
    user_loans := [(5, [0])]
    total_collateral := 20000
    total_principal := 100 }

/-- `sample1` after loan 0 has been repaid and closed. -/
def sample1Closed : LendingState :=
  { sample1 with
    loans := [(0, ⟨5, 20000, 100, 0, 0, .Closed⟩)]
    total_collateral := 0
    total_principal := 0 }

/-- A ledger holding one Closed loan owned by account 1. -/
def sampleClosed : LendingState :=
  { sample0 with
    next_loan_id := 1
    loans := [(0, ⟨1, 20000, 100, 0, 0, .Closed⟩)] }

/-- A ledger where account 5 already has 100 loan ids in its index. -/
def sample100 : LendingState :=
  { sample0 with user_loans := [(5, List.range 100)] }

/-! ## Claims -/

/-- C3: after any sequence of committed operations starting from a freshly
initialized ledger, `total_collateral` equals the sum of `collateral` over
all Active loans, and `total_principal` equals the sum of `principal` over
all Active loans.  Failed operations commit nothing (`runOps` keeps the
pre-state), per the host's all-or-nothing message commit. -/
theorem aggregates_equal_active_sums (owner ct dt rate mn mx : Nat)
    (ops : List Op) :
    (runOps (LendingState.init owner ct dt rate mn mx) ops).total_collateral
      = activeCollSum
          (runOps (LendingState.init owner ct dt rate mn mx) ops).loans ∧
    (runOps (LendingState.init owner ct dt rate mn mx) ops).total_principal
      = activePrinSum
          (runOps (LendingState.init owner ct dt rate mn mx) ops).loans := by
  have h := runOps_preserves_ledgerInv ops
    (ledgerInv_init owner ct dt rate mn mx)
  exact ⟨h.2.2.1, h.2.2.2⟩

/-- C10: `query_loan` on an absent loan id returns `none` (it does not
fail), and `query_user_loans` on an account with no entry returns `[]`.
Both are embedded as pure functions of the state — they take `&self` in
the source and cannot mutate the ledger. -/
theorem query_miss_defaults (s : LendingState) :
    (∀ loan_id, alGet s.loans loan_id = none →
      Service.query_loan s loan_id = none) ∧
    (∀ user, alGet s.user_loans user = none →
      Service.query_user_loans s user = []) := by
  constructor
  · intro loan_id h
    unfold Service.query_loan
    exact h
  · intro user h
    unfold Service.query_user_loans
    rw [h]

/-- Witness for C10 at a concrete fresh state. -/
theorem query_miss_defaults_witness :
    Service.query_loan sample0 0 = none ∧
    Service.query_user_loans sample0 7 = [] :=
  ⟨(query_miss_defaults sample0).1 0 rfl,
   (query_miss_defaults sample0).2 7 rfl⟩

/-- C9: actor resolution.  With no delegated account the effective account
is the caller; with one, the checks fire in order: `NoSession` when no
session exists, `SessionExpired` when `now ≥ expires`, `ActionNotPermitted`
when the action is not allowed, `KeyMismatch` when the registered key is
not the caller, and otherwise the delegated account is returned. -/
theorem get_actor_resolution (smap : List (Nat × SessionData))
    (src : ActorId) (action : ActionsForSession) (now : Nat) :
    get_actor smap src none action now = .ok src ∧
    ∀ account : ActorId,
      (alGet smap account = none →
        get_actor smap src (some account) action now = .error .NoSession) ∧
      ∀ sess : SessionData, alGet smap account = some sess →
        (now ≥ sess.expires →
          get_actor smap src (some account) action now
            = .error .SessionExpired) ∧
        (sess.expires > now → sess.allowed_actions.contains action = false →
          get_actor smap src (some account) action now
            = .error .ActionNotPermitted) ∧
        (sess.expires > now → sess.allowed_actions.contains action = true →
          sess.key ≠ src →
          get_actor smap src (some account) action now
            = .error .KeyMismatch) ∧
        (sess.expires > now → sess.allowed_actions.contains action = true →
          sess.key = src →
          get_actor smap src (some account) action now = .ok account) := by
  refine ⟨rfl, fun account => ⟨fun h => ?_, fun sess hsess => ?_⟩⟩
  · simp [get_actor, h]
  refine ⟨fun hexp => ?_, fun hexp hact => ?_,
    fun hexp hact hkey => ?_, fun hexp hact hkey => ?_⟩
  · simp only [get_actor, hsess]
    rw [if_neg (by omega)]
  · simp only [get_actor, hsess]
    have hno : ¬ (sess.allowed_actions.contains action = true) := by
      rw [hact]; simp
    rw [if_pos hexp, if_neg hno]
  · simp only [get_actor, hsess]
    rw [if_pos hexp, if_pos hact, if_neg hkey]
  · simp only [get_actor, hsess]
    rw [if_pos hexp, if_pos hact, if_pos hkey]

/-- Witness for C9: a delegated call through a live, permitted, key-matched
session resolves to the delegating account. -/
theorem get_actor_resolution_witness :
    get_actor [(7, ⟨5, 10, [.OpenLoan]⟩)] 5 (some 7) .OpenLoan 3
      = .ok 7 :=
  ((((get_actor_resolution [(7, ⟨5, 10, [.OpenLoan]⟩)] 5 .OpenLoan 3).2
      7).2 ⟨5, 10, [.OpenLoan]⟩ rfl).2.2.2) (by decide) (by decide) rfl

/-- The saturated product never exceeds the exact product, so the computed
ratio never exceeds the exact ratio. -/
theorem satMul128_div_le (a b p : Nat) :
    satMul128 a b / p ≤ a * b / p :=
  Nat.div_le_div_right (min_le_left _ _)

/-- C1: with a resolved borrower, principal within `[min_loan, max_loan]`
(both sides positive, as the claim's interval presupposes a well-formed
config and a defined ratio) and positive collateral: when the exact floor
ratio `collateral·1e18/principal` is below `150·1e18` the open fails with
`InsufficientCollateral` (committing nothing), and every successful open
satisfies `150·1e18 ≤ collateral·1e18/principal`.  The code computes the
ratio with `saturating_mul`, which can only lower it, so both directions
transfer to the exact ratio. -/
theorem open_loan_ratio_check (env : Env) (s : LendingState) (c p : Nat)
    (sfa : Option ActorId) (b : ActorId)
    (hactor : get_actor env.sessions env.msg_source sfa .OpenLoan env.now
      = .ok b)
    (hmin : s.min_loan ≤ p) (hmax : p ≤ s.max_loan)
    (hc : 0 < c) (hp : 0 < p) :
    (c * DECIMALS_FACTOR / p < MIN_COLLATERAL_RATIO →
      Service.open_loan env s c p sfa = .error .InsufficientCollateral ∧
      runOps s [Op.openLoan env c p sfa] = s) ∧
    (∀ s' ev calls, Service.open_loan env s c p sfa = .ok (s', ev, calls) →
      MIN_COLLATERAL_RATIO ≤ c * DECIMALS_FACTOR / p) := by
  constructor
  · intro hlow
    have hsat : satMul128 c DECIMALS_FACTOR / p < MIN_COLLATERAL_RATIO :=
      lt_of_le_of_lt (satMul128_div_le c DECIMALS_FACTOR p) hlow
    have hopen : Service.open_loan env s c p sfa
        = .error .InsufficientCollateral := by
      unfold Service.open_loan
      rw [hactor]
      simp only []
      rw [if_neg (by omega), if_neg (by omega)]
      have hdiv : checkedDiv (satMul128 c DECIMALS_FACTOR) p
          = some (satMul128 c DECIMALS_FACTOR / p) := by
        unfold checkedDiv
        rw [if_neg (by omega)]
      rw [hdiv]
      simp only []
      rw [if_pos hsat]
    refine ⟨hopen, ?_⟩
    unfold runOps
    rw [List.foldl_cons]
    have : applyOp s (Op.openLoan env c p sfa)
        = .error .InsufficientCollateral := hopen
    rw [this]
    rfl
  · intro s' ev calls hok
    obtain ⟨b', _, _, _, _, hp0, hratio, _⟩ := open_loan_ok_elim hok
    exact le_trans hratio (satMul128_div_le c DECIMALS_FACTOR p)

/-- Witness for C1: opening 100 collateral against 100 principal
(ratio `1e18 < 150·1e18`) fails with `InsufficientCollateral`. -/
theorem open_loan_ratio_check_witness :
    Service.open_loan ⟨5, 0, [], true, true⟩ sample0 100 100 none
      = .error .InsufficientCollateral ∧
    runOps sample0 [Op.openLoan ⟨5, 0, [], true, true⟩ 100 100 none]
      = sample0 :=
  (open_loan_ratio_check ⟨5, 0, [], true, true⟩ sample0 100 100 none 5 rfl
    (by decide) (by decide) (by decide) (by decide)).1 (by decide)

/-- C2: any loan whose `collateral` and `principal` equal those of some
successful `open_loan` can never be liquidated while Active: the
liquidation ratio check reuses the open-time formula (`max(principal,1)`
equals `principal` because a successful open forces `principal ≠ 0`), so
`liquidate` always fails with `LoanSafe`. -/
theorem validly_opened_loan_liquidation_safe
    (env : Env) (s : LendingState) (c p : Nat) (sfa : Option ActorId)
    (s' : LendingState) (ev : LendingEvent) (calls : List AssetCall)
    (hopen : Service.open_loan env s c p sfa = .ok (s', ev, calls))
    (env2 : Env) (t : LendingState) (id : Nat) (loan : Loan)
    (sfa2 : Option ActorId)
    (hget : alGet t.loans id = some loan)
    (hcoll : loan.collateral = c) (hprin : loan.principal = p)
    (hact : loan.status = .Active) :
    Service.liquidate env2 t id sfa2 = .error .LoanSafe := by
  obtain ⟨b, _, _, _, _, hp0, hratio, _⟩ := open_loan_ok_elim hopen
  unfold Service.liquidate
  rw [hget]
  simp only []
  rw [if_neg (by simp [hact])]
  have hmaxp : max loan.principal 1 = loan.principal := by
    rw [hprin]
    omega
  have hdiv : checkedDiv (satMul128 loan.collateral DECIMALS_FACTOR)
      (max loan.principal 1)
      = some (satMul128 c DECIMALS_FACTOR / p) := by
    unfold checkedDiv
    rw [hmaxp, hprin, hcoll]
    rw [if_neg (by omega)]
  rw [hdiv]
  simp only []
  rw [if_pos hratio]

/-- Witness for C2: after the concrete successful open producing
`sample1`, liquidating loan 0 fails with `LoanSafe`. -/
theorem validly_opened_loan_liquidation_safe_witness :
    Service.liquidate ⟨9, 50, [], true, true⟩ sample1 0 none
      = .error .LoanSafe :=
  validly_opened_loan_liquidation_safe ⟨5, 0, [], true, true⟩ sample0
    20000 100 none sample1 (.LoanOpened 0 5 20000 100)
    [.TransferFrom 2 5 0 20000, .TransferFrom 3 0 5 100] rfl
    ⟨9, 50, [], true, true⟩ sample1 0 ⟨5, 20000, 100, 0, 0, .Active⟩ none
    rfl rfl rfl rfl

/-- C6: a repay on an Active loan owned by the effective account burns
exactly `totalOwed = principal +sat interest`, where the interest is
`floor(floor(principal ·sat rate ·sat elapsed / 31536000) / 1e18)` with
saturating multiplication, `elapsed = now − start_block` saturating at 0,
and each division defaulting to 0 when impossible; for zero elapsed time
the interest is 0 and `totalOwed` is exactly the principal. -/
theorem repay_interest_computation (env : Env) (s : LendingState)
    (loan_id : Nat) (sfa : Option ActorId) (b : ActorId) (loan : Loan)
    (hactor : get_actor env.sessions env.msg_source sfa .RepayLoan env.now
      = .ok b)
    (hget : alGet s.loans loan_id = some loan)
    (hown : loan.borrower = b)
    (hact : loan.status = .Active)
    (h1 : env.reply1_ok = true) (h2 : env.reply2_ok = true)
    (hp : loan.principal ≤ U128MAX) :
    Service.repay env s loan_id sfa = .ok
      ({ s with
          total_collateral := s.total_collateral - loan.collateral
          total_principal := s.total_principal - loan.principal
          loans := alUpdate s.loans loan_id
            (fun l => { l with status := .Closed }) },
        .Repaid loan_id b,
        [.Burn s.debt_token b
          (satAdd128 loan.principal
            ((checkedDiv
              ((checkedDiv
                (satMul128 (satMul128 loan.principal loan.interest_rate)
                  (env.now - loan.start_block)) 31536000).getD 0)
              DECIMALS_FACTOR).getD 0)),
         .Transfer s.collateral_token b loan.collateral]) ∧
    (env.now = loan.start_block →
      satAdd128 loan.principal
        ((checkedDiv
          ((checkedDiv
            (satMul128 (satMul128 loan.principal loan.interest_rate)
              (env.now - loan.start_block)) 31536000).getD 0)
          DECIMALS_FACTOR).getD 0) = loan.principal) := by
  constructor
  · simp only [Service.repay, hactor, hget]
    rw [if_neg (by simp [hown]), if_neg (by simp [hact])]
    rw [if_neg (by simp [h1]), if_neg (by simp [h2])]
    rfl
  · intro hzero
    rw [hzero, Nat.sub_self]
    have hmul : satMul128 (satMul128 loan.principal loan.interest_rate) 0
        = 0 := by
      unfold satMul128 U128MAX
      simp
    rw [hmul]
    unfold checkedDiv
    simp only [if_neg (by omega : ¬ (31536000 : Nat) = 0), Nat.zero_div,
      Option.getD_some]
    rw [if_neg (by unfold DECIMALS_FACTOR; omega)]
    simp only [Nat.zero_div, Option.getD_some]
    unfold satAdd128
    omega

/-- Witness for C6: repaying loan 0 of `sample1` (rate 0, zero elapsed
time) burns exactly the 100 principal and returns the 20000 collateral. -/
theorem repay_interest_computation_witness :
    Service.repay ⟨5, 0, [], true, true⟩ sample1 0 none = .ok
      (sample1Closed, .Repaid 0 5, [.Burn 3 5 100, .Transfer 2 5 20000]) := by
  have h := repay_interest_computation ⟨5, 0, [], true, true⟩ sample1 0 none 5
    ⟨5, 20000, 100, 0, 0, .Active⟩ rfl rfl rfl rfl rfl rfl (by decide)
  rw [h.1]
  rfl

/-- C4 (amended): a Closed or Liquidated loan is terminal.  Every
`liquidate` on it fails with `LoanNotActive`; a `repay` whose resolved
effective account is the loan's borrower fails with `LoanNotActive`
(a repay resolved to any other account fails earlier with `NotLoanOwner`
— the ownership check precedes the status check); no `repay` on it can
ever succeed; no committed operation of any kind changes the stored loan
record; and the failed attempts commit nothing, leaving the state (hence
the aggregates) unchanged. -/
theorem terminal_loan_is_immutable (env : Env) (s : LendingState)
    (loan_id : Nat) (sfa : Option ActorId) (loan : Loan)
    (hget : alGet s.loans loan_id = some loan)
    (hterm : loan.status = .Closed ∨ loan.status = .Liquidated)
    (hkeys : ∀ q ∈ s.loans, q.1 < s.next_loan_id) :
    Service.liquidate env s loan_id sfa = .error .LoanNotActive ∧
    (∀ b, get_actor env.sessions env.msg_source sfa .RepayLoan env.now
        = .ok b → loan.borrower = b →
      Service.repay env s loan_id sfa = .error .LoanNotActive) ∧
    (∀ r, Service.repay env s loan_id sfa ≠ .ok r) ∧
    (∀ op s' ev calls, applyOp s op = .ok (s', ev, calls) →
      alGet s'.loans loan_id = some loan) ∧
    runOps s [Op.liquidate env loan_id sfa] = s ∧
    runOps s [Op.repay env loan_id sfa] = s := by
  have hna : loan.status ≠ .Active := by
    rcases hterm with h | h <;> rw [h] <;> simp
  have hliq : Service.liquidate env s loan_id sfa
      = .error .LoanNotActive := by
    unfold Service.liquidate
    rw [hget]
    simp only []
    rw [if_pos (by simp [hna])]
  have hrep : ∀ r, Service.repay env s loan_id sfa ≠ .ok r := by
    intro r hr
    obtain ⟨b, loan', _, hget', _, hact', _⟩ := repay_ok_elim hr
    rw [hget] at hget'
    rw [Option.some.injEq] at hget'
    rw [← hget'] at hact'
    exact hna hact'
  refine ⟨hliq, ?_, hrep, ?_, ?_, ?_⟩
  · intro b hactor hown
    simp only [Service.repay, hactor, hget]
    rw [if_neg (by simp [hown]), if_pos (by simp [hna])]
  · intro op s' ev calls hok
    cases op with
    | openLoan env2 c p sfa2 =>
      obtain ⟨b, _, _, _, _, _, _, _, _, _, _, _, _, _, hs', _, _⟩ :=
        open_loan_ok_elim hok
      subst hs'
      simp only []
      have hfresh : ∀ q ∈ s.loans, q.1 ≠ s.next_loan_id := by
        intro q hq hqk
        exact absurd (hqk ▸ hkeys q hq) (lt_irrefl _)
      rw [alInsert_fresh _ hfresh]
      exact alGet_append_left hget _
    | repay env2 id2 sfa2 =>
      obtain ⟨b, loan', _, hget', _, hact', _, _, hs', _, _⟩ :=
        repay_ok_elim hok
      subst hs'
      simp only []
      by_cases hid : id2 = loan_id
      · rw [hid] at hget'
        rw [hget] at hget'
        rw [Option.some.injEq] at hget'
        exact absurd (hget' ▸ hact') hna
      · rw [alGet_alUpdate_ne _ hid]
        exact hget
    | liquidate env2 id2 sfa2 =>
      obtain ⟨loan', hget', hact', _, _, hs', _, _⟩ :=
        @liquidate_ok_elim env2 s id2 sfa2 s' ev calls hok
      subst hs'
      simp only []
      by_cases hid : id2 = loan_id
      · rw [hid] at hget'
        rw [hget] at hget'
        rw [Option.some.injEq] at hget'
        exact absurd (hget' ▸ hact') hna
      · rw [alGet_alUpdate_ne _ hid]
        exact hget
    | setOwner env2 o sfa2 =>
      obtain ⟨_, hs', _, _⟩ := set_owner_ok_elim hok
      subst hs'
      exact hget
    | updateParams env2 r mn mx sfa2 =>
      obtain ⟨_, hs', _, _⟩ := update_params_ok_elim hok
      subst hs'
      exact hget
  · unfold runOps
    rw [List.foldl_cons]
    have : applyOp s (Op.liquidate env loan_id sfa)
        = .error .LoanNotActive := hliq
    rw [this]
    rfl
  · unfold runOps
    rw [List.foldl_cons]
    cases hap : applyOp s (Op.repay env loan_id sfa) with
    | ok r =>
      obtain ⟨s', ev, calls⟩ := r
      exact absurd hap (hrep (s', ev, calls))
    | error e => rfl

/-- Counterexample for C4 as stated: on a Closed loan owned by account 1,
a repay issued by account 2 fails with `NotLoanOwner`, not with
`LoanNotActive` (the ownership check runs before the status check). -/
theorem repay_on_closed_by_nonowner :
    Service.repay ⟨2, 0, [], true, true⟩ sampleClosed 0 none
      = .error .NotLoanOwner ∧
    Service.repay ⟨2, 0, [], true, true⟩ sampleClosed 0 none
      ≠ .error .LoanNotActive := by
  constructor
  · rfl
  · intro h
    exact absurd (rfl.trans h : (.error .NotLoanOwner : Except LendingError
      OpResult) = .error .LoanNotActive) (by simp)

/-- Witness for C4 (amended) on a concrete Closed loan: both operations
fail and commit nothing. -/
theorem terminal_loan_is_immutable_witness :
    Service.liquidate ⟨2, 0, [], true, true⟩ sampleClosed 0 none
      = .error .LoanNotActive ∧
    runOps sampleClosed [Op.repay ⟨2, 0, [], true, true⟩ 0 none]
      = sampleClosed := by
  have h := terminal_loan_is_immutable ⟨2, 0, [], true, true⟩ sampleClosed
    0 none ⟨1, 20000, 100, 0, 0, .Closed⟩ rfl (Or.inl rfl) (by decide)
  exact ⟨h.1, h.2.2.2.2.2⟩

/-- `sample0` after the owner committed `update_params 5 0 0`. -/
def sampleBadParams : LendingState :=
  { sample0 with base_interest_rate := 5, min_loan := 0, max_loan := 0 }

/-- C5 (amended): the configuration invariant holds after every successful
`seed` (construction validates it), and every committed operation other
than `update_params` preserves it; `update_params` keeps the token
addresses (hence non-zero) but performs no validation of rate/min/max, so
it alone can break `0 < min ≤ max`. -/
theorem config_invariant_analysis :
    (∀ caller ct dt rate mn mx prev st,
      Service.seed caller ct dt rate mn mx prev = .ok st → configInv st) ∧
    (∀ s op s' ev calls, configInv s → applyOp s op = .ok (s', ev, calls) →
      (s'.collateral_token ≠ 0 ∧ s'.debt_token ≠ 0) ∧
      ((∀ env r mn mx sfa, op ≠ Op.updateParams env r mn mx sfa) →
        configInv s')) := by
  constructor
  · intro caller ct dt rate mn mx prev st h
    unfold Service.seed at h
    split_ifs at h with h1 h2
    push_neg at h1 h2
    rw [Except.ok.injEq] at h
    subst h
    refine ⟨h1.1, h1.2, ?_, ?_, ?_⟩
    · show 0 < mn
      omega
    · show 0 < mx
      omega
    · show mn ≤ mx
      omega
  · intro s op s' ev calls hc hok
    cases op with
    | openLoan env c p sfa =>
      obtain ⟨b, _, _, _, _, _, _, _, _, _, _, _, _, _, hs', _, _⟩ :=
        open_loan_ok_elim hok
      subst hs'
      exact ⟨⟨hc.1, hc.2.1⟩, fun _ => hc⟩
    | repay env id sfa =>
      obtain ⟨b, loan, _, _, _, _, _, _, hs', _, _⟩ := repay_ok_elim hok
      subst hs'
      exact ⟨⟨hc.1, hc.2.1⟩, fun _ => hc⟩
    | liquidate env id sfa =>
      obtain ⟨loan, _, _, _, _, hs', _, _⟩ :=
        @liquidate_ok_elim env s id sfa s' ev calls hok
      subst hs'
      exact ⟨⟨hc.1, hc.2.1⟩, fun _ => hc⟩
    | setOwner env o sfa =>
      obtain ⟨_, hs', _, _⟩ := set_owner_ok_elim hok
      subst hs'
      exact ⟨⟨hc.1, hc.2.1⟩, fun _ => hc⟩
    | updateParams env r mn mx sfa =>
      obtain ⟨_, hs', _, _⟩ := update_params_ok_elim hok
      subst hs'
      exact ⟨⟨hc.1, hc.2.1⟩, fun h => absurd rfl (h env r mn mx sfa)⟩

/-- Counterexample for C5 as stated: from a valid configuration the owner
commits `update_params` with `min_loan = max_loan = 0`; the operation
succeeds and the configuration invariant no longer holds. -/
theorem update_params_breaks_config :
    configInv sample0 ∧
    Service.update_params ⟨1, 0, [], true, true⟩ sample0 5 0 0 none
      = .ok (sampleBadParams, .ParamsUpdated, []) ∧
    ¬ configInv sampleBadParams := by
  refine ⟨⟨by decide, by decide, by decide, by decide, by decide⟩, rfl, ?_⟩
  intro h
  exact absurd h.2.2.1 (by decide)

/-- Witness for C5 (amended): a successful construction yields a state
satisfying the configuration invariant. -/
theorem config_invariant_analysis_witness : configInv sample0 :=
  config_invariant_analysis.1 1 2 3 0 10 1000 none sample0 rfl

/-- C7 (amended): an `open_loan` whose effective borrower already has 100
(or more) entries in the per-account index can never commit: it always
fails, and when it passes actor resolution, input validation, the ratio
check, the global limit and both transfers, the failure is specifically
`UserLoanLimitReached`; the failed call commits nothing — no loan insert,
no `next_loan_id` change, no index change, no aggregate change (the only
writes in the source occur after the last suspension point, so the trap
reverts them all). -/
theorem user_loan_limit_blocks_open (env : Env) (s : LendingState)
    (c p : Nat) (sfa : Option ActorId) (b : ActorId)
    (hactor : get_actor env.sessions env.msg_source sfa .OpenLoan env.now
      = .ok b)
    (hlen : 100 ≤ ((alGet s.user_loans b).getD []).length) :
    (∀ r, Service.open_loan env s c p sfa ≠ .ok r) ∧
    (¬ (p < s.min_loan ∨ p > s.max_loan) → c ≠ 0 → p ≠ 0 →
      ¬ satMul128 c DECIMALS_FACTOR / p < MIN_COLLATERAL_RATIO →
      s.loans.length < 10000 → env.reply1_ok = true →
      env.reply2_ok = true →
      Service.open_loan env s c p sfa = .error .UserLoanLimitReached) ∧
    runOps s [Op.openLoan env c p sfa] = s := by
  have hfail : ∀ r, Service.open_loan env s c p sfa ≠ .ok r := by
    intro r hr
    obtain ⟨s', ev, calls⟩ := r
    obtain ⟨b', hactor', _, _, _, _, _, _, _, _, hlen', _⟩ :=
      open_loan_ok_elim hr
    rw [hactor] at hactor'
    rw [Except.ok.injEq] at hactor'
    rw [← hactor'] at hlen'
    omega
  refine ⟨hfail, ?_, ?_⟩
  · intro hbounds hc0 hp0 hratio hsize h1 h2
    unfold Service.open_loan
    rw [hactor]
    simp only []
    rw [if_neg hbounds, if_neg hc0]
    have hdiv : checkedDiv (satMul128 c DECIMALS_FACTOR) p
        = some (satMul128 c DECIMALS_FACTOR / p) := by
      unfold checkedDiv
      rw [if_neg hp0]
    rw [hdiv]
    simp only []
    rw [if_neg hratio, if_neg (by omega), if_neg (by simp [h1]),
      if_neg (by simp [h2]), if_pos (by omega)]
  · unfold runOps
    rw [List.foldl_cons]
    cases hap : applyOp s (Op.openLoan env c p sfa) with
    | ok r => exact absurd hap (hfail r)
    | error e => rfl

/-- Counterexample for C7 as stated: with account 5 already at 100 index
entries, an open whose principal is below `min_loan` fails with
`PrincipalOutOfBounds`, not with `UserLoanLimitReached` (input validation
runs first). -/
theorem open_at_limit_fails_with_other_error :
    100 ≤ ((alGet sample100.user_loans 5).getD []).length ∧
    Service.open_loan ⟨5, 0, [], true, true⟩ sample100 200 5 none
      = .error .PrincipalOutOfBounds := by
  exact ⟨by decide, rfl⟩

/-- Witness for C7 (amended): an otherwise-valid open by the account at
the 100-entry limit fails with `UserLoanLimitReached`. -/
theorem user_loan_limit_blocks_open_witness :
    Service.open_loan ⟨5, 0, [], true, true⟩ sample100 20000 100 none
      = .error .UserLoanLimitReached :=
  (user_loan_limit_blocks_open ⟨5, 0, [], true, true⟩ sample100 20000 100
    none 5 rfl (by decide)).2.1 (by decide) (by decide) (by decide)
    (by decide) (by decide) rfl rfl

/-- C8 (amended): `seed` performs no already-initialized check — whenever
the parameter validation passes it succeeds and unconditionally replaces
the whole singleton state with a fresh one, regardless of any previously
initialized state (`LendingState::init` simply overwrites; call-once is
ensured only externally, by the program constructor being invoked once by
the runtime). -/
theorem seed_ignores_prior_state (caller ct dt rate mn mx : Nat)
    (prev : Option LendingState)
    (hct : ct ≠ 0) (hdt : dt ≠ 0) (hmn : mn ≠ 0) (hmx : mx ≠ 0)
    (hle : mn ≤ mx) :
    Service.seed caller ct dt rate mn mx prev
      = .ok (LendingState.init caller ct dt rate mn mx) := by
  unfold Service.seed
  have h1 : ¬ (ct = 0 ∨ dt = 0) := by omega
  have h2 : ¬ (mn = 0 ∨ mx = 0 ∨ mx < mn) := by omega
  rw [if_neg h1, if_neg h2]

/-- Counterexample for C8 as stated: with the ledger already initialized
as `sample0` (owner 1), a second seed by account 9 with valid parameters
does not abort — it succeeds and replaces the state (the new state
differs, e.g. in its owner). -/
theorem seed_reinit_succeeds :
    Service.seed 9 2 3 0 10 1000 (some sample0)
      = .ok (LendingState.init 9 2 3 0 10 1000) ∧
    LendingState.init 9 2 3 0 10 1000 ≠ sample0 :=
  ⟨rfl, by decide⟩

/-- Witness for C8 (amended) at concrete parameters over an initialized
prior state. -/
theorem seed_ignores_prior_state_witness :
    Service.seed 9 2 3 0 10 1000 (some sample1)
      = .ok (LendingState.init 9 2 3 0 10 1000) :=
  seed_ignores_prior_state 9 2 3 0 10 1000 (some sample1)
    (by decide) (by decide) (by decide) (by decide) (by decide)

end VRC0002
